import Mathlib

/-!
# Verification of the Snapchat memories download orchestration core

Shallow embedding of `download_snapchat_memories.py`
(class `SnapchatMemoriesDownloader`): descriptor extraction from the HTML
export (`parse_html`), identity and naming (`extract_sid_from_url`,
`generate_filename`), the transfer executor with retry/backoff
(`download_file`), archive normalization (`_extract_zip_if_needed`) and the
sequential scheduler (`_run_sequential`, `run`).

Python strings are modelled as Lean `String` (a wrapper around `List Char`);
all the CPython library routines the script relies on (`str.replace`,
`str.strip`, `str.lower`, `urllib.parse.urlparse` / `parse_qs`,
`datetime.strptime` / `strftime`, `re.search` for the one directive pattern,
`zipfile`) are given executable models below, restricted to the exact
arguments the script uses.  Network I/O is an oracle
`net : Nat → Req → Resp` giving the response of each request on each retry
attempt; the filesystem is an association list from path to file data; the
mutable statistics/state and the emitted side effects (requests, sleeps,
counter updates with their lock status, failure-log appends, temp-file
operations) are threaded through an explicit `DState`.

CPython's `hash` on `str` is salted per process (`PYTHONHASHSEED`), so the
per-process string hash is a parameter `pyhash : String → Int` of every
function that calls it: two process invocations are modelled by two
different `pyhash` functions.
-/

namespace SnapMem

/-! ## Characters and elementary Python string routines -/

/-- Python whitespace (`str.strip` default set and ASCII `\s` of `re`):
space, tab, newline, carriage return, vertical tab, form feed. -/
def pyIsSpace (c : Char) : Bool :=
  c = ' ' || c = '\t' || c = '\n' || c = '\r' || c = Char.ofNat 11 || c = Char.ofNat 12

/-- Test for an ASCII digit `0`–`9` (code points 48–57; `\d` of `re`
restricted to ASCII). -/
def isDigitC (c : Char) : Bool := 48 ≤ c.toNat && c.toNat ≤ 57

/-- Numeric value of an ASCII digit (code point minus 48). -/
def dval (c : Char) : Nat := c.toNat - 48

/-- Hexadecimal value of a character, as accepted by
`urllib.parse.unquote`: digits, then the lowercase range `a`–`f`
(97–102), then the uppercase range `A`–`F` (65–70). -/
def hexVal (c : Char) : Option Nat :=
  let n := c.toNat
  if 48 ≤ n && n ≤ 57 then some (n - 48)
  else if 97 ≤ n && n ≤ 102 then some (n - 87)
  else if 65 ≤ n && n ≤ 70 then some (n - 55)
  else none

/-- Boolean test that the char list `pat` starts the list `s`. -/
def isPrefixL : List Char → List Char → Bool
  | [], _ => true
  | _ :: _, [] => false
  | p :: pt, c :: ct => p = c && isPrefixL pt ct

/-- Model of `memory['date'].replace(' UTC', '')` (line 141): remove every
occurrence of the 4 characters `" UTC"`, scanning left to right without
re-scanning produced text, exactly like `str.replace`. -/
def replaceUTCL : List Char → List Char
  | ' ' :: 'U' :: 'T' :: 'C' :: rest => replaceUTCL rest
  | c :: rest => c :: replaceUTCL rest
  | [] => []

/-- Wrapper for `str.replace(' UTC', '')` on `String`. -/
def pyReplaceUTC (s : String) : String := ⟨replaceUTCL s.data⟩

/-- Model of Python `str.lower` (the script only lowercases ASCII labels
such as `"Video"`/`"Image"`). -/
def pyLower (s : String) : String := ⟨s.data.map Char.toLower⟩

/-- Model of Python `str.strip()` (used on the POST response body,
line 246): drop leading and trailing whitespace. -/
def pyStrip (s : String) : String :=
  ⟨((s.data.dropWhile pyIsSpace).reverse.dropWhile pyIsSpace).reverse⟩

/-- Decimal digits of a natural number (auxiliary, fuel-driven). -/
def natStrAux : Nat → Nat → List Char
  | 0, _ => []
  | fuel + 1, n =>
    if n < 10 then [Char.ofNat ('0'.toNat + n)]
    else natStrAux fuel (n / 10) ++ [Char.ofNat ('0'.toNat + n % 10)]

/-- Decimal rendering of a natural number, as Python `str`. -/
def natStr (n : Nat) : String := ⟨natStrAux (n + 1) n⟩

/-- Model of Python `str(int)` (used in `str(hash(url))`, line 152). -/
def intStr : Int → String
  | Int.ofNat n => natStr n
  | Int.negSucc n => "-" ++ natStr (n + 1)

/-! ## `urllib.parse`: query extraction and `parse_qs` -/

/-- Tail of the list after the first occurrence of `c`, if any. -/
def afterFirst (c : Char) : List Char → Option (List Char)
  | [] => none
  | x :: t => if x = c then some t else afterFirst c t

/-- Query component of a URL as computed by `urllib.parse.urlsplit`:
the fragment is split off at the first `'#'` first, then the query is
everything after the first `'?'` of what remains (empty if there is no
`'?'`). Scheme and netloc parsing never consume a `'?'` or `'#'`. -/
def urlQueryL (url : List Char) : List Char :=
  match afterFirst '?' (url.takeWhile (fun c => c ≠ '#')) with
  | some q => q
  | none => []

/-- Model of `unquote(s.replace('+', ' '))` as performed by
`urllib.parse.parse_qsl` on each name and value: `'+'` becomes a space and
`%XX` hex escapes are decoded (an invalid escape is left as a literal
`'%'`, as in CPython).  Multi-byte UTF-8 escapes are out of scope: each
decoded byte is modelled as one character. -/
def unquotePlusL : List Char → List Char
  | [] => []
  | '+' :: rest => ' ' :: unquotePlusL rest
  | '%' :: a :: b :: rest =>
    match hexVal a, hexVal b with
    | some ha, some hb => Char.ofNat (16 * ha + hb) :: unquotePlusL rest
    | _, _ => '%' :: unquotePlusL (a :: b :: rest)
  | c :: rest => c :: unquotePlusL rest

/-- Split a char list on `'&'` (the separator used by `parse_qsl`). -/
def splitAmp : List Char → List (List Char)
  | [] => [[]]
  | '&' :: rest => [] :: splitAmp rest
  | c :: rest =>
    match splitAmp rest with
    | [] => [[c]]
    | p :: ps => (c :: p) :: ps

/-- Split a pair at the first `'='`: `name_value.split('=', 1)` with the
"no `'='` at all" case reported as `none`. -/
def splitFirstEq : List Char → Option (List Char × List Char)
  | [] => none
  | '=' :: rest => some ([], rest)
  | c :: rest =>
    match splitFirstEq rest with
    | some (n, v) => some (c :: n, v)
    | none => none

/-- Model of `urllib.parse.parse_qsl(qs)` with the default arguments used
via `parse_qs` (line 95): pairs split on `'&'`, empty chunks skipped,
chunks without `'='` skipped (`strict_parsing=False`), blank values
skipped (`keep_blank_values=False`), names and values `unquote_plus`-ed. -/
def parse_qsl (qs : List Char) : List (String × String) :=
  (splitAmp qs).filterMap fun nv =>
    if nv.isEmpty then none
    else
      match splitFirstEq nv with
      | none => none
      | some (n, v) =>
        if v.isEmpty then none
        else some (⟨unquotePlusL n⟩, ⟨unquotePlusL v⟩)

/-- One step of the `parse_qs` dictionary construction: append the value to
the group of `k` if present, otherwise add a new singleton group at the
end (dict insertion order). -/
def addQ (d : List (String × List String)) (k : String) (v : String) :
    List (String × List String) :=
  match d with
  | [] => [(k, [v])]
  | (k', vs) :: t => if k' = k then (k', vs ++ [v]) :: t else (k', vs) :: addQ t k v

/-- Model of `urllib.parse.parse_qs(qs)`: group the `parse_qsl` pairs into
a name → list-of-values dictionary. -/
def parse_qs (qs : List Char) : List (String × List String) :=
  (parse_qsl qs).foldl (fun d p => addQ d p.1 p.2) []

/-- Lines 91–98, `extract_sid_from_url`: parse the locator as a URI,
take the query, run `parse_qs`, and return `params.get('sid', [None])[0]`.
The Python `try`/`except` wrapper returns `None` on any failure; the model
is total, returning `none` when there is no `sid` parameter. -/
def extract_sid_from_url (url : String) : Option String :=
  match List.lookup "sid" (parse_qs (urlQueryL url.data)) with
  | some vs => vs.head?
  | none => none

/-! ## `datetime.strptime('%Y-%m-%d %H:%M:%S')` and `strftime` -/

/-- The six date/time fields produced by parsing. -/
structure DT where
  y : Nat
  mo : Nat
  d : Nat
  hh : Nat
  mi : Nat
  ss : Nat
deriving DecidableEq, Repr

/-- Field `%Y` of `_strptime`: exactly four ASCII digits. -/
def altY : List Char → List (Nat × List Char)
  | a :: b :: c :: d :: rest =>
    if isDigitC a && isDigitC b && isDigitC c && isDigitC d then
      [(1000 * dval a + 100 * dval b + 10 * dval c + dval d, rest)]
    else []
  | _ => []

/-- A two-digits-then-one-digit numeric field of `_strptime`
(`%m`,`%d`,`%H`,`%M`,`%S` all have this shape): the two-digit alternatives
come first in the regex alternation, the one-digit alternative last; the
predicates give the admissible values of each alternative. -/
def altNum (valid2 valid1 : Nat → Bool) : List Char → List (Nat × List Char)
  | a :: b :: rest =>
    (if isDigitC a && isDigitC b && valid2 (10 * dval a + dval b) then
       [(10 * dval a + dval b, rest)]
     else []) ++
    (if isDigitC a && valid1 (dval a) then [(dval a, b :: rest)] else [])
  | [a] => if isDigitC a && valid1 (dval a) then [(dval a, [])] else []
  | [] => []

/-- A literal character of the format string. -/
def litC (c : Char) : List Char → List (Unit × List Char)
  | x :: t => if x = c then [((), t)] else []
  | [] => []

/-- Literal whitespace in the format becomes `\s+` in `_strptime`:
at least one whitespace character, maximal munch (the following format
token is a digit field, so no shorter munch can ever match). -/
def wsPlus : List Char → List (Unit × List Char)
  | [] => []
  | x :: t => if pyIsSpace x then [((), (x :: t).dropWhile pyIsSpace)] else []

/-- All regex matches of the `'%Y-%m-%d %H:%M:%S'` pattern against the
whole string (`strptime` fails on trailing unconverted data), in regex
backtracking order; the head, when present, is the match `re` selects.
Alternative ranges as in CPython `_strptime.TimeRE`:
`%m`: `1[0-2]|0[1-9]|[1-9]`, `%d`: `3[01]|[12]\d|0[1-9]|[1-9]`,
`%H`: `2[0-3]|[0-1]\d|\d`, `%M`: `[0-5]\d|\d`, `%S`: `6[0-1]|[0-5]\d|\d`. -/
def strptimeMatches (s : List Char) : List DT :=
  (altY s).flatMap fun py =>
  (litC '-' py.2).flatMap fun p1 =>
  (altNum (fun n => 1 ≤ n && n ≤ 12) (fun n => 1 ≤ n) p1.2).flatMap fun pm =>
  (litC '-' pm.2).flatMap fun p2 =>
  (altNum (fun n => 1 ≤ n && n ≤ 31) (fun n => 1 ≤ n) p2.2).flatMap fun pd =>
  (wsPlus pd.2).flatMap fun p3 =>
  (altNum (fun n => n ≤ 23) (fun _ => true) p3.2).flatMap fun ph =>
  (litC ':' ph.2).flatMap fun p4 =>
  (altNum (fun n => n ≤ 59) (fun _ => true) p4.2).flatMap fun pmi =>
  (litC ':' pmi.2).flatMap fun p5 =>
  (altNum (fun n => n ≤ 61) (fun _ => true) p5.2).flatMap fun ps =>
  if ps.2.isEmpty then [⟨py.1, pm.1, pd.1, ph.1, pmi.1, ps.1⟩] else []

/-- Gregorian leap year, as `datetime`. -/
def leapYear (y : Nat) : Bool := y % 4 = 0 && (y % 100 ≠ 0 || y % 400 = 0)

/-- Days in a month, as validated by the `datetime` constructor. -/
def daysInMonth (y m : Nat) : Nat :=
  if m = 2 then (if leapYear y then 29 else 28)
  else if m = 4 || m = 6 || m = 9 || m = 11 then 30
  else 31

/-- The `datetime(...)` constructor validation applied by `strptime` to the
regex match: year in `1..9999`, day within the month, seconds `≤ 59`
(the regex also accepts 60 and 61 but `datetime` rejects them); months, hours
and minutes are already constrained by the regex. -/
def validDT (t : DT) : Bool :=
  1 ≤ t.y && t.y ≤ 9999 && 1 ≤ t.d && t.d ≤ daysInMonth t.y t.mo && t.ss ≤ 59

/-- Model of `datetime.strptime(s, '%Y-%m-%d %H:%M:%S')` (line 142):
the regex engine commits to its first match, then the `datetime`
constructor validates it (a validation failure raises, it does not
backtrack into the regex). -/
def strptimeYmdHMS (s : String) : Option DT :=
  match strptimeMatches s.data with
  | [] => none
  | t :: _ => if validDT t then some t else none

/-- Zero-pad to two digits (`%m`,`%d`,`%H`,`%M`,`%S` of `strftime`). -/
def pad2 (n : Nat) : String := if n < 10 then "0" ++ natStr n else natStr n

/-- Zero-pad to four digits (`%Y` of `strftime`; all parsed years have
four digits anyway). -/
def pad4 (n : Nat) : String :=
  if n < 10 then "000" ++ natStr n
  else if n < 100 then "00" ++ natStr n
  else if n < 1000 then "0" ++ natStr n
  else natStr n

/-- Model of `dt.strftime('%Y-%m-%d_%H-%M-%S')` (line 143). -/
def fmtDT (t : DT) : String :=
  pad4 t.y ++ "-" ++ pad2 t.mo ++ "-" ++ pad2 t.d ++ "_" ++
    pad2 t.hh ++ "-" ++ pad2 t.mi ++ "-" ++ pad2 t.ss

/-! ## Identity and naming: `generate_filename` (lines 137–163) -/

/-- One parsed download descriptor (the dicts built by `parse_html`). -/
structure Memory where
  url : String
  date : String
  media_type : String
  is_get_request : Bool
deriving DecidableEq, Repr

/-- The `date_part` computation of `generate_filename` (lines 140–145):
remove every `' UTC'`, `strptime`, `strftime`; `'unknown_date'` on any
parse failure. -/
def pyDatePart (date : String) : String :=
  match strptimeYmdHMS (pyReplaceUTC date) with
  | some dt => fmtDT dt
  | none => "unknown_date"

/-- The `unique_part` computation of `generate_filename` (lines 147–152):
first 16 characters of the `sid` if extractable, else the first 16
characters of `str(hash(url))` for the per-process string hash `pyhash`. -/
def pyUniquePart (pyhash : String → Int) (url : String) : String :=
  match extract_sid_from_url url with
  | some sid => ⟨sid.data.take 16⟩
  | none => ⟨(intStr (pyhash url)).data.take 16⟩

/-- The extension choice of `generate_filename` (lines 154–161). -/
def pyExtPart (media_type : String) : String :=
  if pyLower media_type = "video" then "mp4"
  else if pyLower media_type = "image" then "jpg"
  else "bin"

/-- Lines 137–163, `generate_filename`: `f"{date_part}_{unique_part}.{ext}"`. -/
def generate_filename (pyhash : String → Int) (m : Memory) : String :=
  pyDatePart m.date ++ "_" ++ pyUniquePart pyhash m.url ++ "." ++ pyExtPart m.media_type

/-! ## Filesystem, network and run state -/

/-- An entry of a ZIP archive: its name and its bytes; `data = none` models
an entry whose `zf.read` raises (corrupt/undecodable entry). -/
structure ZipEntry where
  name : String
  data : Option String
deriving DecidableEq, Repr

/-- Contents of a file on disk: either plain bytes, or bytes that
`zipfile.is_zipfile` recognizes as a ZIP archive with the given entries.
(A recognized archive is never empty: its end-of-central-directory record
alone is 22 bytes, so its size is modelled as nonzero.) -/
inductive FData where
  | raw (bytes : String)
  | zip (entries : List ZipEntry)
deriving DecidableEq, Repr

/-- Size `os.stat().st_size` of the modelled file data. -/
def fdataSize : FData → Nat
  | FData.raw s => s.data.length
  | FData.zip _ => 22

/-- Text `response.text` of a body (only ever used on the plain-text POST
response of the indirect protocol; decoding binary data still yields some
string, modelled as empty). -/
def fdataText : FData → String
  | FData.raw s => s
  | FData.zip _ => ""

/-- An HTTP request issued by the executor.  `get url tagged` is a GET,
with `tagged = true` when the fixed `X-Snap-Route-Tag: mem-dmd` header is
added (the direct protocol, line 223) and `false` for the plain follow-up
GET of the indirect protocol (line 249); `post base payload` is the
form-encoded POST of the indirect protocol (lines 237–242). -/
inductive Req where
  | get (url : String) (tagged : Bool)
  | post (baseUrl : String) (payload : String)
deriving DecidableEq, Repr

/-- Response of the network oracle: `ok body` is a 2xx response with the
given body; `err` is any raising outcome (timeout, connection error, or a
non-2xx status raised by `raise_for_status`). -/
inductive Resp where
  | ok (body : FData)
  | err
deriving DecidableEq, Repr

/-- Observable side effects, in program order: requests, `time.sleep`
calls (backoff inside the retry loop vs. the scheduler's pacing delay),
statistics-counter increments together with whether `stats_lock` is held
at the increment, failure-log appends, and the temp-file operations of
archive normalization. -/
inductive Ev where
  | req (r : Req)
  | sleepBackoff (seconds : Nat)
  | sleepPacing (seconds : Rat)
  | statIncr (counter : String) (locked : Bool)
  | logFailure (url : String)
  | tempWrite (path : String)
  | unlink (path : String)
  | rename (src dst : String)
  | warnZip (path : String)
deriving DecidableEq, Repr

/-- The downloader's mutable state: the `downloaded_files` mapping
(persisted by `save_state` after every mutation), the filesystem, the four
statistics counters, the failure log, and the event trace. -/
structure DState where
  downloaded_files : List (String × String)
  fs : List (String × FData)
  total : Nat
  successful : Nat
  failed : Nat
  skipped : Nat
  failure_log : List String
  trace : List Ev
deriving DecidableEq, Repr

/-- The empty initial state of a first run in a fresh output directory. -/
def emptyDState : DState :=
  { downloaded_files := [], fs := [], total := 0, successful := 0,
    failed := 0, skipped := 0, failure_log := [], trace := [] }

/-- Overwrite-or-append update of an association list (dict assignment /
truncating file write). -/
def setAssoc {β : Type} (l : List (String × β)) (k : String) (v : β) :
    List (String × β) :=
  match l with
  | [] => [(k, v)]
  | (k', v') :: t => if k' = k then (k, v) :: t else (k', v') :: setAssoc t k v

/-- Remove a key from an association list (`Path.unlink`). -/
def delAssoc {β : Type} (l : List (String × β)) (k : String) :
    List (String × β) :=
  l.filter (fun p => p.1 ≠ k)

/-- Append one event to the trace. -/
def emit (ev : Ev) (st : DState) : DState :=
  { st with trace := st.trace ++ [ev] }

/-- Directories `output_dir/images` and `output_dir/videos` (lines 37–38); the run
configuration (lines 25–30). -/
structure Config where
  output_dir : String
  delay : Rat
  max_retries : Nat
deriving DecidableEq, Repr

/-- Path `self.images_dir`. -/
def images_dir (cfg : Config) : String := cfg.output_dir ++ "/images"

/-- Path `self.videos_dir`. -/
def videos_dir (cfg : Config) : String := cfg.output_dir ++ "/videos"

/-- Lines 204–207: videos go to `videos_dir`, everything else to
`images_dir`. -/
def outputDirOf (cfg : Config) (m : Memory) : String :=
  if pyLower m.media_type = "video" then videos_dir cfg else images_dir cfg

/-- The full local target path of a descriptor (directory plus
`generate_filename`). -/
def targetPath (cfg : Config) (pyhash : String → Int) (m : Memory) : String :=
  outputDirOf cfg m ++ "/" ++ generate_filename pyhash m

/-! ## Archive normalization: `_extract_zip_if_needed` (lines 165–188) -/

/-- The entry-name test of line 173: ends with `-main.jpg` or `-main.mp4`. -/
def isMainEntry (e : ZipEntry) : Bool :=
  "-main.jpg".data.isSuffixOf e.name.data || "-main.mp4".data.isSuffixOf e.name.data

/-- Lines 165–188: if the file at `dir/name` is a recognized ZIP, find the
first `-main` entry; if present, write its bytes to the sibling
`dir/temp_name`, unlink the original, and rename the temp file onto it.
`zf.read` raising (entry `data = none`) is caught by the outer `except`
*after* `open(temp_path, 'wb')` has already created the (empty) temp file,
so that file stays behind; the warning is the `warnZip` event.  A missing
file makes `is_zipfile` raise, also caught as a warning. -/
def extract_zip_if_needed (dir name : String) (st : DState) : DState :=
  let target := dir ++ "/" ++ name
  match List.lookup target st.fs with
  | some (FData.zip entries) =>
    match entries.find? isMainEntry with
    | some e =>
      let temp := dir ++ "/" ++ ("temp_" ++ name)
      match e.data with
      | some d =>
        let st1 := { st with fs := setAssoc st.fs temp (FData.raw d),
                             trace := st.trace ++ [Ev.tempWrite temp] }
        let st2 := { st1 with fs := delAssoc st1.fs target,
                              trace := st1.trace ++ [Ev.unlink target] }
        { st2 with fs := setAssoc (delAssoc st2.fs temp) target (FData.raw d),
                   trace := st2.trace ++ [Ev.rename temp target] }
      | none =>
        { st with fs := setAssoc st.fs temp (FData.raw ""),
                  trace := st.trace ++ [Ev.tempWrite temp, Ev.warnZip target] }
    | none => st
  | some (FData.raw _) => st
  | none => { st with trace := st.trace ++ [Ev.warnZip target] }

/-! ## Transfer executor: `download_file` (lines 190–283) -/

/-- Split `url.split('?', 1)` of the indirect protocol (lines 233–235): base URL
and query-string payload (empty payload when there is no `'?'`). -/
def splitPostUrl (url : String) : String × String :=
  match afterFirst '?' url.data with
  | some rest => (⟨url.data.takeWhile (fun c => c ≠ '?')⟩, ⟨rest⟩)
  | none => (url, "")

/-- The first request of an attempt: tagged GET in direct mode, POST in
indirect mode. -/
def initialReq (m : Memory) : Req :=
  if m.is_get_request then Req.get m.url true
  else Req.post (splitPostUrl m.url).1 (splitPostUrl m.url).2

/-- The request-and-write phase of one `try` iteration (lines 220–253):
in direct mode the single tagged GET, in indirect mode the POST followed
by the GET of the stripped response body; on a 2xx final response the body
is written to `output_path`.  Returns the updated state and whether the
write happened (`false` means some request raised). -/
def fetchPhase (net : Nat → Req → Resp) (m : Memory) (output_path : String)
    (attempt : Nat) (st : DState) : DState × Bool :=
  if m.is_get_request then
    let st1 := emit (Ev.req (Req.get m.url true)) st
    match net attempt (Req.get m.url true) with
    | Resp.err => (st1, false)
    | Resp.ok body => ({ st1 with fs := setAssoc st1.fs output_path body }, true)
  else
    let parts := splitPostUrl m.url
    let st1 := emit (Ev.req (Req.post parts.1 parts.2)) st
    match net attempt (Req.post parts.1 parts.2) with
    | Resp.err => (st1, false)
    | Resp.ok pbody =>
      let download_url := pyStrip (fdataText pbody)
      let st2 := emit (Ev.req (Req.get download_url false)) st1
      match net attempt (Req.get download_url false) with
      | Resp.err => (st2, false)
      | Resp.ok body => ({ st2 with fs := setAssoc st2.fs output_path body }, true)

/-- One iteration of the `try` block of the retry loop (lines 219–268):
perform the mode's request(s), write the body to `output_path`, verify the
file is non-empty, normalize archives, record the `sid`, and count
`successful` under `stats_lock`.  Returns the updated state and whether the
block reached `return True` (`false` means an exception was raised and
control passes to the `except` handler). -/
def tryAttempt (net : Nat → Req → Resp) (m : Memory)
    (sid : Option String) (dir filename : String) (attempt : Nat)
    (st : DState) : DState × Bool :=
  let output_path := dir ++ "/" ++ filename
  match fetchPhase net m output_path attempt st with
  | (stW, false) => (stW, false)
  | (stW, true) =>
    match List.lookup output_path stW.fs with
    | some d =>
      if 0 < fdataSize d then
        let stE := extract_zip_if_needed dir filename stW
        let stR :=
          match sid with
          | some s =>
            -- `with self.state_lock: self.downloaded_files[sid] = ...` then
            -- `self.save_state()` (lines 260–263)
            { stE with downloaded_files := setAssoc stE.downloaded_files s output_path }
          | none => stE
        ({ stR with successful := stR.successful + 1,
                    trace := stR.trace ++ [Ev.statIncr "successful" true] }, true)
      else (stW, false)  -- `raise Exception("Downloaded file is empty")`
    | none => (stW, false)

/-- The retry loop `for attempt in range(self.max_retries)` (lines
218–283), as recursion on the remaining iterations (`remaining + attempt =
max_retries` throughout).  A failed non-final attempt sleeps
`2 ** attempt`; the final attempt's failure appends one failure-log record
and counts `failed` under `stats_lock`; an exhausted loop (only possible
when `max_retries = 0`) falls through to the bare `return False` of
line 283. -/
def attemptLoop (cfg : Config) (net : Nat → Req → Resp) (m : Memory)
    (sid : Option String) (dir filename : String) :
    Nat → Nat → DState → Bool × DState
  | 0, _, st => (false, st)
  | remaining + 1, attempt, st =>
    match tryAttempt net m sid dir filename attempt st with
    | (st', true) => (true, st')
    | (st', false) =>
      if attempt < cfg.max_retries - 1 then
        attemptLoop cfg net m sid dir filename remaining (attempt + 1)
          { st' with trace := st'.trace ++ [Ev.sleepBackoff (2 ^ attempt)] }
      else
        (false, { st' with failure_log := st'.failure_log ++ [m.url],
                           failed := st'.failed + 1,
                           trace := st'.trace ++
                             [Ev.logFailure m.url, Ev.statIncr "failed" true] })

/-- The `sid and sid in self.downloaded_files` test of line 197. -/
def sidKnown (sid : Option String) (st : DState) : Bool :=
  match sid with
  | some s => (List.lookup s st.downloaded_files).isSome
  | none => false

/-- The `output_path.exists() and output_path.stat().st_size > 0` test of
line 210. -/
def fileOnDisk (path : String) (st : DState) : Bool :=
  match List.lookup path st.fs with
  | some d => 0 < fdataSize d
  | none => false

/-- Lines 190–283, `download_file`.  Path 1 (lines 196–200): the `sid` is
already in the state store — count `skipped` *under* `stats_lock` and
return.  Path 2 (lines 209–215): the target file already exists non-empty —
record the `sid` if there is one (and persist), then count `skipped`
*without* holding `stats_lock` (the lone unlocked counter update in the
source), and return.  Otherwise run the retry loop. -/
def download_file (cfg : Config) (net : Nat → Req → Resp)
    (pyhash : String → Int) (m : Memory) (st : DState) : Bool × DState :=
  let sid := extract_sid_from_url m.url
  if sidKnown sid st then
    (true, { st with skipped := st.skipped + 1,
                     trace := st.trace ++ [Ev.statIncr "skipped" true] })
  else
    let filename := generate_filename pyhash m
    let dir := outputDirOf cfg m
    let output_path := dir ++ "/" ++ filename
    if fileOnDisk output_path st then
      let st1 :=
        match sid with
        | some s =>
          -- line 212 (unlocked dict write) + `save_state` (internally locked)
          { st with downloaded_files := setAssoc st.downloaded_files s output_path }
        | none => st
      (true, { st1 with skipped := st1.skipped + 1,
                        trace := st1.trace ++ [Ev.statIncr "skipped" false] })
    else
      attemptLoop cfg net m sid dir filename cfg.max_retries 0 st

/-! ## Scheduler: `_run_sequential` (lines 333–348) and `run` -/

/-- Lines 333–348, `_run_sequential` with `workers = 1`: process the
descriptors strictly in list order; after each item, sleep the configured
delay iff the item is not the last (`i < len(memories) - 1`) and its
download returned success. -/
def run_sequential (cfg : Config) (net : Nat → Req → Resp)
    (pyhash : String → Int) : List Memory → DState → DState
  | [], st => st
  | m :: rest, st =>
    let r := download_file cfg net pyhash m st
    let st' := if !rest.isEmpty && r.1 then emit (Ev.sleepPacing cfg.delay) r.2 else r.2
    run_sequential cfg net pyhash rest st'

/-- The per-item success results of the same sequential run, in order
(observation function for stating scheduler properties; it threads states
exactly as `run_sequential` does). -/
def seqResults (cfg : Config) (net : Nat → Req → Resp)
    (pyhash : String → Int) : List Memory → DState → List Bool
  | [], _ => []
  | m :: rest, st =>
    let r := download_file cfg net pyhash m st
    let st' := if !rest.isEmpty && r.1 then emit (Ev.sleepPacing cfg.delay) r.2 else r.2
    r.1 :: seqResults cfg net pyhash rest st'

/-- Lines 285–309 of `run` after HTML parsing, for the sequential
(`workers = 1`) configuration: set `stats['total']`, return immediately on
an empty list, otherwise run `_run_sequential`. -/
def run_pipeline (cfg : Config) (net : Nat → Req → Resp)
    (pyhash : String → Int) (memories : List Memory) (st : DState) : DState :=
  let st0 := { st with total := memories.length }
  if memories.isEmpty then st0
  else run_sequential cfg net pyhash memories st0

/-- A fresh process invocation over the same output directory: the
filesystem and the failure log persist; `load_state` reads back the
mapping persisted by `save_state` (the in-memory mapping is flushed after
every mutation, so the final mapping of the previous run is what is on
disk); the statistics and the trace are new. -/
def freshProcess (prev : DState) : DState :=
  { downloaded_files := prev.downloaded_files, fs := prev.fs, total := 0,
    successful := 0, failed := 0, skipped := 0,
    failure_log := prev.failure_log, trace := [] }

/-! ## Descriptor extractor: `parse_html` (lines 100–135) -/

/-- An `<a>` element of a table cell, with its `onclick` attribute when
present (`find('a', onclick=True)` selects on attribute presence). -/
structure Anchor where
  onclick : Option String
deriving DecidableEq, Repr

/-- A `<td>` cell: its stripped text and its `<a>` children in document
order. -/
structure Cell where
  text : String
  anchors : List Anchor
deriving DecidableEq, Repr

/-- The continuation of the directive regex after the lazily-captured
locator: `',` then `\s*` then `this,` then `\s*` then `(true|false)` then
`)`.  Returns the captured boolean literal. -/
def matchCont (s : List Char) : Option String :=
  if isPrefixL "',".data s then
    let s1 := (s.drop 2).dropWhile pyIsSpace
    if isPrefixL "this,".data s1 then
      let s2 := (s1.drop 5).dropWhile pyIsSpace
      if isPrefixL "true)".data s2 then some "true"
      else if isPrefixL "false)".data s2 then some "false"
      else none
    else none
  else none

/-- The lazy group `(.+?)` of the directive regex: grow the capture one
character at a time (at least one; `.` does not match a newline), trying
the continuation after each character. -/
def lazyCapture (acc : List Char) : List Char → Option (List Char × String)
  | [] => none
  | c :: rest =>
    if c = '\n' then none
    else
      match matchCont rest with
      | some lit => some (acc ++ [c], lit)
      | none => lazyCapture (acc ++ [c]) rest

/-- Model of `re.search(r"downloadMemories\('(.+?)',\s*this,\s*(true|false)\)", s)`
(line 122): try each start position left to right; at a position where the
literal head `downloadMemories('` matches, run the lazy capture; if the
whole pattern cannot complete there, resume scanning at the next
position.  Returns the two captured groups (locator, boolean literal). -/
def searchDirective : List Char → Option (String × String)
  | [] => none
  | c :: t =>
    if isPrefixL "downloadMemories('".data (c :: t) then
      match lazyCapture [] ((c :: t).drop "downloadMemories('".data.length) with
      | some (u, lit) => some (⟨u⟩, lit)
      | none => searchDirective t
    else searchDirective t

/-- Lines 111–124 for one row: require at least four cells, find the first
`<a onclick=...>` of cell 3, and run the directive regex on its `onclick`
value. -/
def rowDirective (cells : List Cell) : Option (String × String) :=
  if 4 ≤ cells.length then
    match (cells.getD 3 ⟨"", []⟩).anchors.find? (fun a => a.onclick.isSome) with
    | some link => searchDirective (link.onclick.getD "").data
    | none => none
  else none

/-- Lines 111–132 for one row: build the memory dict from a parseable
directive; `is_get_request` is `match.group(2) == 'true'`. -/
def parseRow (cells : List Cell) : Option Memory :=
  match rowDirective cells with
  | some (u, lit) =>
    some { url := u, date := (cells.getD 0 ⟨"", []⟩).text,
           media_type := (cells.getD 1 ⟨"", []⟩).text,
           is_get_request := lit == "true" }
  | none => none

/-- Lines 100–135, `parse_html`: one memory per row with a parseable
directive, rows without one silently dropped, document order kept. -/
def parse_html (rows : List (List Cell)) : List Memory :=
  rows.filterMap parseRow

/-! ## Observation predicates and spec-side definitions -/

/-- The first value of a `parse_qs`-style grouped dictionary under the
`get(k, [None])[0]` projection. -/
def firstVal (d : List (String × List String)) (k : String) : Option String :=
  match List.lookup k d with
  | some vs => vs.head?
  | none => none

/-- Is this event a scheduler pacing sleep? -/
def isPacingEv : Ev → Bool
  | Ev.sleepPacing _ => true
  | _ => false

/-- Is this event an issued HTTP request? -/
def isReqEv : Ev → Bool
  | Ev.req _ => true
  | _ => false

/-- The backoff duration of an event, when it is a backoff sleep. -/
def backoffOf : Ev → Option Nat
  | Ev.sleepBackoff n => some n
  | _ => none

/-- A request event conforms to the transfer mode `b` (`true` = Direct,
`false` = Indirect): in Direct mode every request is the tagged GET; in
Indirect mode requests are the POST and the untagged follow-up GET.
Non-request events conform vacuously. -/
def matchesMode (b : Bool) : Ev → Prop
  | Ev.req (Req.get _ tagged) => tagged = b
  | Ev.req (Req.post _ _) => b = false
  | _ => True

/-- Everything a single `download_file` call may append to the trace:
mode-conforming requests, no scheduler pacing sleep, and a
locked `skipped` increment (the Skipped-Known path) only when the
descriptor has an extractable `sid`. -/
def dlOk (m : Memory) (ev : Ev) : Prop :=
  matchesMode m.is_get_request ev ∧ isPacingEv ev = false ∧
    (ev = Ev.statIncr "skipped" true → (extract_sid_from_url m.url).isSome = true)

/-- The exact event sequence of a terminally failing `download_file` call
(all attempts raise): for each attempt index `k` in `0 .. max_retries-1`,
the mode's initial request, then the `2^k` backoff sleep unless `k` is the
final index; then the one failure-log append and the locked `failed`
increment. -/
def retryTrace (m : Memory) (mr : Nat) : List Ev :=
  ((List.range mr).flatMap fun k =>
    Ev.req (initialReq m) ::
      (if k < mr - 1 then [Ev.sleepBackoff (2 ^ k)] else [])) ++
  [Ev.logFailure m.url, Ev.statIncr "failed" true]

/-- The trace contribution of each scheduled item of a sequential run, in
list order: the item's own `download_file` events followed by the pacing
sleep exactly when the item is not the last one and succeeded (the
claim-level description of `_run_sequential`; threads states exactly as
the code does). -/
def pacedBlocks (cfg : Config) (net : Nat → Req → Resp)
    (pyhash : String → Int) : List Memory → DState → List (List Ev)
  | [], _ => []
  | m :: rest, st =>
    let r := download_file cfg net pyhash m st
    let block := (r.2.trace.drop st.trace.length) ++
      (if !rest.isEmpty && r.1 then [Ev.sleepPacing cfg.delay] else [])
    let st' := if !rest.isEmpty && r.1 then emit (Ev.sleepPacing cfg.delay) r.2 else r.2
    block :: pacedBlocks cfg net pyhash rest st'

/-- Modelled from the claim's wording of C8 (for refutation, not from the
source): strip one optional *trailing* `" UTC"` suffix from the timestamp,
then parse with `%Y-%m-%d %H:%M:%S`, with the `unknown_date` fallback. -/
def suffixStrippedDatePart (date : String) : String :=
  let d : String :=
    if " UTC".data.isSuffixOf date.data then ⟨date.data.take (date.data.length - 4)⟩
    else date
  match strptimeYmdHMS d with
  | some dt => fmtDT dt
  | none => "unknown_date"

/-! ## Concrete instances used by the concrete theorems -/

/-- A descriptor whose locator has no query string, hence no extractable
`sid` (such rows occur in real exports when the directive embeds a plain
CDN URL). -/
def memNoSid : Memory :=
  { url := "https://cf-st.sc-cdn.net/d/abc.jpg", date := "2023-01-02 03:04:05 UTC",
    media_type := "Image", is_get_request := true }

/-- The same date and kind with a `sid`-bearing locator. -/
def memWithSid : Memory :=
  { url := "https://app.snapchat.com/dmd/memories?uid=1&sid=0123456789abcdefgh",
    date := "2023-01-02 03:04:05 UTC", media_type := "Image", is_get_request := true }

/-- A descriptor whose timestamp contains `" UTC"` in the middle instead
of as a suffix. -/
def memMidUTC : Memory :=
  { url := "https://ex.com/nofile", date := "2016-06-13 UTC 18:47:52",
    media_type := "Image", is_get_request := true }

/-- A descriptor with an unparseable timestamp. -/
def memBadDate : Memory :=
  { url := "https://ex.com/other", date := "not a date", media_type := "Video",
    is_get_request := false }

/-- The default configuration of the tool (`downloads`, 1 s delay, 3
retries). -/
def defaultCfg : Config := { output_dir := "downloads", delay := 1, max_retries := 3 }

/-- An always-successful network oracle returning a plain non-empty body. -/
def netAlwaysOk : Nat → Req → Resp := fun _ _ => Resp.ok (FData.raw "DATA")

/-- An always-failing network oracle. -/
def netAlwaysErr : Nat → Req → Resp := fun _ _ => Resp.err

/-- An oracle on which every GET succeeds and every POST fails (so a
Direct-mode item succeeds while an Indirect-mode item fails
deterministically). -/
def netSecondFails : Nat → Req → Resp := fun _ r =>
  match r with
  | Req.get _ _ => Resp.ok (FData.raw "DATA")
  | Req.post _ _ => Resp.err

/-- First modelled process invocation: every string hashes to 0. -/
def hashA : String → Int := fun _ => 0

/-- Second modelled process invocation: every string hashes to 1
(CPython salts `hash(str)` per process, so distinct invocations are
modelled by distinct hash functions). -/
def hashB : String → Int := fun _ => 1

/-- The final state of a first, fully successful sequential run over the
single no-`sid` descriptor. -/
def firstRunState : DState :=
  run_pipeline defaultCfg netAlwaysOk hashA [memNoSid] emptyDState

/-- The final state of a second run over the same export and output
directory, in a fresh process (fresh hash salt). -/
def secondRunState : DState :=
  run_pipeline defaultCfg netAlwaysOk hashB [memNoSid] (freshProcess firstRunState)

/-- The final state of a second run whose process happens to hash like the
first one (e.g. a fixed `PYTHONHASHSEED`). -/
def secondRunSameHashState : DState :=
  run_pipeline defaultCfg netAlwaysOk hashA [memNoSid] (freshProcess firstRunState)

/-- A state in which `memNoSid`'s target file already exists, non-empty,
but nothing is recorded in the state store (e.g. a run interrupted after
the write and restarted with the same hash salt). -/
def onDiskState : DState :=
  { emptyDState with fs := [(targetPath defaultCfg hashA memNoSid, FData.raw "X")] }

/-- A state whose target file for `images/f.jpg` is a ZIP archive whose
`-main` entry cannot be read (`zf.read` raises on it). -/
def badZipState : DState :=
  { emptyDState with
    fs := [("downloads/images/f.jpg", FData.zip [⟨"k-main.jpg", none⟩])] }

/-- A state whose target file for `images/g.jpg` is a well-formed ZIP
archive with a readable `-main` entry. -/
def goodZipState : DState :=
  { emptyDState with
    fs := [("downloads/images/g.jpg", FData.zip [⟨"k-main.jpg", some "IMG"⟩])] }

/-- The locator of the sample export row. -/
def sampleUrl : String := "https://app.snapchat.com/dmd/memories?uid=1&sid=q"

/-- One export table row as `parse_html` sees it: timestamp cell, media
kind cell, a filler cell, and the download cell with a plain anchor
followed by the directive-bearing anchor. -/
def sampleRow : List Cell :=
  [⟨"2023-01-02 03:04:05 UTC", []⟩, ⟨"Image", []⟩, ⟨"", []⟩,
   ⟨"", [⟨none⟩,
         ⟨some "downloadMemories('https://app.snapchat.com/dmd/memories?uid=1&sid=q', this, true)"⟩]⟩]

/-- The descriptor `parse_html` produces from `sampleRow`. -/
def sampleMem : Memory :=
  { url := sampleUrl, date := "2023-01-02 03:04:05 UTC", media_type := "Image",
    is_get_request := true }

/-! ## Association-list lemmas -/

theorem lookup_setAssoc_self {β : Type} (l : List (String × β)) (k : String) (v : β) :
    List.lookup k (setAssoc l k v) = some v := by
  induction l with
  | nil => simp [setAssoc, List.lookup]
  | cons p t ih =>
    obtain ⟨k', v'⟩ := p
    by_cases h : k' = k
    · simp [setAssoc, h, List.lookup]
    · have e : (k == k') = false := beq_eq_false_iff_ne.mpr (Ne.symm h)
      simp [setAssoc, if_neg h, List.lookup, e, ih]

theorem lookup_setAssoc_ne {β : Type} (l : List (String × β)) (k k' : String) (v : β)
    (h : k' ≠ k) : List.lookup k' (setAssoc l k v) = List.lookup k' l := by
  have e : (k' == k) = false := beq_eq_false_iff_ne.mpr h
  induction l with
  | nil => simp [setAssoc, List.lookup, e]
  | cons p t ih =>
    obtain ⟨k0, v0⟩ := p
    by_cases h0 : k0 = k
    · subst h0
      simp [setAssoc, List.lookup, e]
    · by_cases h1 : k' = k0
      · subst h1
        simp [setAssoc, if_neg h0, List.lookup]
      · have e1 : (k' == k0) = false := beq_eq_false_iff_ne.mpr h1
        simp [setAssoc, if_neg h0, List.lookup, e1, ih]

theorem lookup_delAssoc_self {β : Type} (l : List (String × β)) (k : String) :
    List.lookup k (delAssoc l k) = none := by
  induction l with
  | nil => simp [delAssoc, List.lookup]
  | cons p t ih =>
    obtain ⟨k0, v0⟩ := p
    by_cases h0 : k0 = k
    · simpa [delAssoc, h0] using ih
    · have e : (k == k0) = false := beq_eq_false_iff_ne.mpr (Ne.symm h0)
      simpa [delAssoc, List.filter, h0, List.lookup, e] using ih

theorem lookup_delAssoc_ne {β : Type} (l : List (String × β)) (k k' : String)
    (h : k' ≠ k) : List.lookup k' (delAssoc l k) = List.lookup k' l := by
  induction l with
  | nil => simp [delAssoc, List.lookup]
  | cons p t ih =>
    obtain ⟨k0, v0⟩ := p
    by_cases h0 : k0 = k
    · subst h0
      have e : (k' == k0) = false := beq_eq_false_iff_ne.mpr h
      simpa [delAssoc, List.filter, List.lookup, e] using ih
    · by_cases h1 : k' = k0
      · subst h1
        simp [delAssoc, List.filter, h0, List.lookup]
      · have e1 : (k' == k0) = false := beq_eq_false_iff_ne.mpr h1
        simpa [delAssoc, List.filter, h0, List.lookup, e1] using ih

theorem lookup_eq_none_iff {β : Type} (l : List (String × β)) (k : String) :
    List.lookup k l = none ↔ ∀ p ∈ l, p.1 ≠ k := by
  induction l with
  | nil => simp [List.lookup]
  | cons p t ih =>
    obtain ⟨k0, v0⟩ := p
    by_cases h : k = k0
    · subst h
      simp [List.lookup]
    · have e : (k == k0) = false := beq_eq_false_iff_ne.mpr h
      simp only [List.lookup, e, List.mem_cons, ih]
      constructor
      · rintro hall q (rfl | hq)
        · simpa [eq_comm] using h
        · exact hall q hq
      · intro hall q hq
        exact hall q (Or.inr hq)

/-! ## The `parse_qs` grouping round-trip (for C7) -/

theorem lookup_addQ_self (d : List (String × List String)) (k : String) (v : String) :
    List.lookup k (addQ d k v) = some (((List.lookup k d).getD []) ++ [v]) := by
  induction d with
  | nil => simp [addQ, List.lookup]
  | cons p t ih =>
    obtain ⟨k0, vs0⟩ := p
    by_cases h0 : k0 = k
    · subst h0
      simp [addQ, List.lookup]
    · have e : (k == k0) = false := beq_eq_false_iff_ne.mpr (Ne.symm h0)
      simp [addQ, if_neg h0, List.lookup, e, ih]

theorem lookup_addQ_ne (d : List (String × List String)) (k k' v : String)
    (h : k' ≠ k) : List.lookup k' (addQ d k v) = List.lookup k' d := by
  have e : (k' == k) = false := beq_eq_false_iff_ne.mpr h
  induction d with
  | nil => simp [addQ, List.lookup, e]
  | cons p t ih =>
    obtain ⟨k0, vs0⟩ := p
    by_cases h0 : k0 = k
    · subst h0
      simp [addQ, List.lookup, e]
    · by_cases h1 : k' = k0
      · subst h1
        simp [addQ, if_neg h0, List.lookup]
      · have e1 : (k' == k0) = false := beq_eq_false_iff_ne.mpr h1
        simp [addQ, if_neg h0, List.lookup, e1, ih]

theorem addQ_groups_nonempty (d : List (String × List String)) (k v : String)
    (inv : ∀ p ∈ d, p.2 ≠ []) : ∀ p ∈ addQ d k v, p.2 ≠ [] := by
  induction d with
  | nil => simp [addQ]
  | cons q t ih =>
    obtain ⟨k0, vs0⟩ := q
    intro p hp
    by_cases h0 : k0 = k
    · simp only [addQ, if_pos h0, List.mem_cons] at hp
      rcases hp with rfl | hp
      · simp
      · exact inv p (List.mem_cons_of_mem _ hp)
    · simp only [addQ, if_neg h0, List.mem_cons] at hp
      rcases hp with rfl | hp
      · exact inv _ (List.mem_cons_self _ _)
      · exact ih (fun q hq => inv q (List.mem_cons_of_mem _ hq)) p hp

theorem lookup_group_ne_nil (d : List (String × List String)) (k : String)
    (vs : List String) (inv : ∀ p ∈ d, p.2 ≠ [])
    (h : List.lookup k d = some vs) : vs ≠ [] := by
  induction d with
  | nil => simp [List.lookup] at h
  | cons p t ih =>
    obtain ⟨k0, vs0⟩ := p
    by_cases h0 : k = k0
    · subst h0
      simp [List.lookup] at h
      exact h ▸ inv (k, vs0) (List.mem_cons_self _ _)
    · have e : (k == k0) = false := beq_eq_false_iff_ne.mpr h0
      simp only [List.lookup, e] at h
      exact ih (fun q hq => inv q (List.mem_cons_of_mem _ hq)) h

theorem firstVal_foldl (pairs : List (String × String)) :
    ∀ (d : List (String × List String)) (k : String), (∀ p ∈ d, p.2 ≠ []) →
    firstVal (pairs.foldl (fun d p => addQ d p.1 p.2) d) k =
      match List.lookup k d with
      | some vs => vs.head?
      | none => List.lookup k pairs := by
  induction pairs with
  | nil =>
    intro d k _
    simp only [List.foldl_nil, firstVal]
    cases List.lookup k d <;> simp [List.lookup]
  | cons p t ih =>
    intro d k inv
    obtain ⟨k', v'⟩ := p
    simp only [List.foldl_cons]
    rw [ih (addQ d k' v') k (addQ_groups_nonempty d k' v' inv)]
    by_cases h : k = k'
    · subst h
      rw [lookup_addQ_self]
      cases hd : List.lookup k d with
      | none =>
        simp only [hd, Option.getD_none, List.nil_append, List.head?]
        simp [List.lookup]
      | some vs =>
        have hvs : vs ≠ [] := lookup_group_ne_nil d k vs inv hd
        cases vs with
        | nil => exact absurd rfl hvs
        | cons a l => simp [hd]
    · rw [lookup_addQ_ne d k' k v' h]
      cases List.lookup k d with
      | none =>
        have e : (k == k') = false := beq_eq_false_iff_ne.mpr h
        simp [List.lookup, e]
      | some vs => rfl

/-! ## Claim C7: `extract_sid_from_url` is total and returns the `sid` -/

/-- Claim C7: for every input string, well-formed URL or not,
`extract_sid_from_url` terminates and returns exactly the first value of
the query parameter `sid` of the locator's query component (`none` on any
parse failure or missing/blank parameter).  The Lean model is a total
function, so exception-freedom holds by construction; this theorem
identifies its result with the first `"sid"` pair of the parsed query and
characterizes `none` as the absence of such a pair. -/
theorem C7_extract_sid_total (url : String) :
    extract_sid_from_url url = List.lookup "sid" (parse_qsl (urlQueryL url.data)) ∧
    (extract_sid_from_url url = none ↔
      ∀ p ∈ parse_qsl (urlQueryL url.data), p.1 ≠ "sid") := by
  have h1 : extract_sid_from_url url = firstVal (parse_qs (urlQueryL url.data)) "sid" := rfl
  have h2 : extract_sid_from_url url = List.lookup "sid" (parse_qsl (urlQueryL url.data)) := by
    rw [h1, parse_qs, firstVal_foldl _ [] "sid" (by simp)]
    simp [List.lookup]
  exact ⟨h2, by rw [h2]; exact lookup_eq_none_iff _ _⟩

/-- Claim C7 witness: on a concrete locator with a `sid` parameter the
function returns it, via the theorem. -/
theorem C7_extract_sid_total_witness :
    extract_sid_from_url "https://app.snapchat.com/dmd/memories?uid=1&sid=abc" = some "abc" :=
  (C7_extract_sid_total "https://app.snapchat.com/dmd/memories?uid=1&sid=abc").1.trans
    (by decide)

/-! ## Claim C1: naming is NOT stable across process restarts -/

/-- Claim C1 (refuted; the code is at fault): for a descriptor whose
locator has no extractable `sid`, `generate_filename` builds the unique
part from `str(hash(url))`, and CPython's string hash is salted per
process: two process invocations (modelled by the two hash functions
`hashA`, `hashB`) produce different Local Targets for the very same
descriptor, while a `sid`-bearing descriptor's name is hash-independent.
This contradicts the claimed restart-independent determinism exactly on
the no-`sid` case the claim calls out. -/
theorem C1_filename_depends_on_process_hash :
    extract_sid_from_url memNoSid.url = none ∧
    generate_filename hashA memNoSid ≠ generate_filename hashB memNoSid ∧
    generate_filename hashA memWithSid = generate_filename hashB memWithSid := by
  decide

/-! ## Claim C8: `' UTC'` removal and the `unknown_date` fallback -/

/-- Claim C8 counterexample: the code removes *every* occurrence of
`' UTC'` (`str.replace`), not an optional suffix.  On the timestamp
`"2016-06-13 UTC 18:47:52"` the code parses successfully and produces a
dated filename, whereas the claimed algorithm (strip one trailing
`' UTC'`, then parse) fails to parse and would yield `unknown_date`. -/
theorem C8_not_suffix_stripping :
    generate_filename hashA memMidUTC = "2016-06-13_18-47-52_0.jpg" ∧
    suffixStrippedDatePart memMidUTC.date = "unknown_date" ∧
    pyDatePart memMidUTC.date ≠ suffixStrippedDatePart memMidUTC.date := by
  decide

/-- Claim C8 (amended): `generate_filename` removes every occurrence of
`' UTC'` from the timestamp (in particular a trailing one), parses the
result with `%Y-%m-%d %H:%M:%S`, substitutes the literal `unknown_date`
for every timestamp that fails to parse, and still returns a filename of
the usual shape rather than failing the descriptor. -/
theorem C8_replace_all_then_parse (pyhash : String → Int) (m : Memory) :
    generate_filename pyhash m =
      pyDatePart m.date ++ "_" ++ pyUniquePart pyhash m.url ++ "." ++ pyExtPart m.media_type ∧
    (strptimeYmdHMS (pyReplaceUTC m.date) = none → pyDatePart m.date = "unknown_date") ∧
    (∀ dt, strptimeYmdHMS (pyReplaceUTC m.date) = some dt → pyDatePart m.date = fmtDT dt) := by
  refine ⟨rfl, ?_, ?_⟩
  · intro h
    simp [pyDatePart, h]
  · intro dt h
    simp [pyDatePart, h]

/-- Claim C8 witness: the amended theorem applied to the unparseable
timestamp `"not a date"` yields the `unknown_date` fallback. -/
theorem C8_replace_all_then_parse_witness :
    pyDatePart memBadDate.date = "unknown_date" :=
  (C8_replace_all_then_parse hashA memBadDate).2.1 (by decide)

/-! ## Claim C2: the pipeline is NOT idempotent across process restarts -/

/-- Claim C2 (refuted; the code is at fault, for the same reason as the
unstable naming): after a first run in which the single no-`sid`
descriptor succeeded, a second run in a fresh process (fresh string-hash
salt) derives a different filename, misses both the state store (no `sid`
was ever recorded) and the on-disk check, and transfers again:
its `successful` counter is 1 and `skipped` is 0, not `successful = 0`
and `skipped = total`.  With an identical hash salt the second run would
skip as claimed (last conjuncts), isolating the randomized hash as
the cause. -/
theorem C2_second_run_redownloads :
    firstRunState.successful = 1 ∧ firstRunState.failed = 0 ∧
    firstRunState.skipped = 0 ∧
    secondRunState.total = 1 ∧ secondRunState.successful = 1 ∧
    secondRunState.skipped = 0 ∧
    secondRunState.fs ≠ firstRunState.fs ∧
    secondRunSameHashState.successful = 0 ∧ secondRunSameHashState.skipped = 1 ∧
    secondRunSameHashState.fs = firstRunState.fs := by
  decide

/-! ## Claim C5: the Skipped-OnDisk counter update is NOT locked -/

/-- Claim C5 (refuted in its locking conjunct; the code is at fault): on the
Skipped-OnDisk path (target file already exists, non-empty), line 214
increments the `skipped` counter *without* acquiring `stats_lock`, unlike
every other counter update in `download_file`.  The call still terminates
successfully, updates only `skipped`, and updates it exactly once — but
the single emitted counter event carries `locked = false`, contradicting
"every counter update is performed while holding the statistics lock". -/
theorem C5_ondisk_skip_unlocked :
    (download_file defaultCfg netAlwaysOk hashA memNoSid onDiskState).1 = true ∧
    (download_file defaultCfg netAlwaysOk hashA memNoSid onDiskState).2.trace
      = [Ev.statIncr "skipped" false] ∧
    (download_file defaultCfg netAlwaysOk hashA memNoSid onDiskState).2.skipped = 1 ∧
    (download_file defaultCfg netAlwaysOk hashA memNoSid onDiskState).2.successful = 0 ∧
    (download_file defaultCfg netAlwaysOk hashA memNoSid onDiskState).2.failed = 0 := by
  decide

/-! ## Claim C6: archive normalization and the temp file -/

/-- Claim C6 counterexample: when the ZIP has a `-main` entry whose
`zf.read` raises, the `open(temp_path, 'wb')` of line 180 has already
created the temp file; the exception is caught (warning only, original
file kept) and the `temp_*` file remains beside the target — refuting
"on every exit path no temp_* file remains". -/
theorem C6_temp_left_on_failure :
    List.lookup ("downloads/images" ++ "/" ++ ("temp_" ++ "f.jpg"))
        (extract_zip_if_needed "downloads/images" "f.jpg" badZipState).fs
      = some (FData.raw "") ∧
    List.lookup ("downloads/images" ++ "/" ++ "f.jpg")
        (extract_zip_if_needed "downloads/images" "f.jpg" badZipState).fs
      = some (FData.zip [⟨"k-main.jpg", none⟩]) := by
  decide

theorem temp_path_ne (dir name : String) :
    dir ++ "/" ++ ("temp_" ++ name) ≠ dir ++ "/" ++ name := by
  intro h
  have h2 := congrArg String.length h
  simp [String.length_append] at h2
  exact absurd h2 (by decide)

/-- Claim C6 (amended): for a recognized ZIP archive at the target whose
first `-main.jpg`/`-main.mp4` entry is readable, normalization leaves
exactly that entry's bytes at the Local Target, the replacement goes
through the sibling temp file followed by a rename, and no `temp_*` file
remains; when reading the entry fails, the original file is kept
untouched (the warning path), but a `temp_*` file may remain (per the
counterexample). -/
theorem C6_archive_normalization (dir name : String) (st : DState)
    (entries : List ZipEntry) (e : ZipEntry)
    (hz : List.lookup (dir ++ "/" ++ name) st.fs = some (FData.zip entries))
    (hm : entries.find? isMainEntry = some e) :
    (∀ d, e.data = some d →
      List.lookup (dir ++ "/" ++ name) (extract_zip_if_needed dir name st).fs
          = some (FData.raw d) ∧
      List.lookup (dir ++ "/" ++ ("temp_" ++ name)) (extract_zip_if_needed dir name st).fs
          = none ∧
      (extract_zip_if_needed dir name st).trace = st.trace ++
        [Ev.tempWrite (dir ++ "/" ++ ("temp_" ++ name)), Ev.unlink (dir ++ "/" ++ name),
         Ev.rename (dir ++ "/" ++ ("temp_" ++ name)) (dir ++ "/" ++ name)]) ∧
    (e.data = none →
      List.lookup (dir ++ "/" ++ name) (extract_zip_if_needed dir name st).fs
          = some (FData.zip entries)) := by
  have hne := temp_path_ne dir name
  constructor
  · intro d hd
    simp only [extract_zip_if_needed, hz, hm, hd]
    refine ⟨?_, ?_, by simp⟩
    · exact lookup_setAssoc_self _ _ _
    · rw [lookup_setAssoc_ne _ _ _ _ hne]
      exact lookup_delAssoc_self _ _
  · intro hd
    simp only [extract_zip_if_needed, hz, hm, hd]
    rw [lookup_setAssoc_ne _ _ _ _ (Ne.symm hne)]
    exact hz

/-- Claim C6 witness: the amended theorem applied to a concrete archive
with a readable `-main` entry: the target holds the entry's bytes and the
temp file is gone. -/
theorem C6_archive_normalization_witness :
    List.lookup ("downloads/images" ++ "/" ++ "g.jpg")
        (extract_zip_if_needed "downloads/images" "g.jpg" goodZipState).fs
      = some (FData.raw "IMG") ∧
    List.lookup ("downloads/images" ++ "/" ++ ("temp_" ++ "g.jpg"))
        (extract_zip_if_needed "downloads/images" "g.jpg" goodZipState).fs = none :=
  have h := (C6_archive_normalization "downloads/images" "g.jpg" goodZipState
    [⟨"k-main.jpg", some "IMG"⟩] ⟨"k-main.jpg", some "IMG"⟩
    (by decide) (by decide)).1 "IMG" rfl
  ⟨h.1, h.2.1⟩

/-! ## Trace-delta lemmas for `download_file` -/

theorem extract_zip_delta (m : Memory) (dir name : String) (st : DState) :
    ∃ delta, (extract_zip_if_needed dir name st).trace = st.trace ++ delta ∧
      (extract_zip_if_needed dir name st).downloaded_files = st.downloaded_files ∧
      ∀ ev ∈ delta, dlOk m ev := by
  unfold extract_zip_if_needed
  cases hlk : List.lookup (dir ++ "/" ++ name) st.fs with
  | none =>
    simp only [hlk]
    refine ⟨[Ev.warnZip (dir ++ "/" ++ name)], by simp, by simp, ?_⟩
    intro ev hev
    simp only [List.mem_singleton] at hev
    subst hev
    simp [dlOk, matchesMode, isPacingEv]
  | some fd =>
    cases fd with
    | raw b =>
      simp only [hlk]
      exact ⟨[], by simp, by simp, by simp⟩
    | zip entries =>
      simp only [hlk]
      cases hfind : entries.find? isMainEntry with
      | none =>
        simp only [hfind]
        exact ⟨[], by simp, by simp, by simp⟩
      | some e =>
        simp only [hfind]
        cases hdata : e.data with
        | some d =>
          simp only [hdata]
          refine ⟨[Ev.tempWrite (dir ++ "/" ++ ("temp_" ++ name)),
                   Ev.unlink (dir ++ "/" ++ name),
                   Ev.rename (dir ++ "/" ++ ("temp_" ++ name)) (dir ++ "/" ++ name)],
            by simp, by simp, ?_⟩
          intro ev hev
          simp only [List.mem_cons, List.mem_singleton] at hev
          rcases hev with h | h | h | h <;> first
            | (subst h; simp [dlOk, matchesMode, isPacingEv])
            | simp at h
        | none =>
          simp only [hdata]
          refine ⟨[Ev.tempWrite (dir ++ "/" ++ ("temp_" ++ name)),
                   Ev.warnZip (dir ++ "/" ++ name)], by simp, by simp, ?_⟩
          intro ev hev
          simp only [List.mem_cons, List.mem_singleton] at hev
          rcases hev with h | h | h <;> first
            | (subst h; simp [dlOk, matchesMode, isPacingEv])
            | simp at h

theorem fetchPhase_delta (net : Nat → Req → Resp) (m : Memory)
    (output_path : String) (attempt : Nat) (st : DState) :
    ∃ delta, (fetchPhase net m output_path attempt st).1.trace = st.trace ++ delta ∧
      (fetchPhase net m output_path attempt st).1.downloaded_files = st.downloaded_files ∧
      ∀ ev ∈ delta, dlOk m ev := by
  unfold fetchPhase
  by_cases hg : m.is_get_request
  · simp only [hg, if_true]
    cases hnet : net attempt (Req.get m.url true) with
    | err =>
      exact ⟨[Ev.req (Req.get m.url true)], by simp [emit], by simp [emit], by
        intro ev hev
        simp only [List.mem_singleton] at hev
        subst hev
        simp [dlOk, matchesMode, isPacingEv, hg]⟩
    | ok body =>
      exact ⟨[Ev.req (Req.get m.url true)], by simp [emit], by simp [emit], by
        intro ev hev
        simp only [List.mem_singleton] at hev
        subst hev
        simp [dlOk, matchesMode, isPacingEv, hg]⟩
  · have hg' : m.is_get_request = false := by simpa using hg
    simp only [hg', Bool.false_eq_true, if_false]
    cases hnet : net attempt (Req.post (splitPostUrl m.url).1 (splitPostUrl m.url).2) with
    | err =>
      exact ⟨[Ev.req (Req.post (splitPostUrl m.url).1 (splitPostUrl m.url).2)],
        by simp [emit], by simp [emit], by
        intro ev hev
        simp only [List.mem_singleton] at hev
        subst hev
        simp [dlOk, matchesMode, isPacingEv, hg']⟩
    | ok pbody =>
      simp only [hnet]
      cases hnet2 : net attempt (Req.get (pyStrip (fdataText pbody)) false) with
      | err =>
        exact ⟨[Ev.req (Req.post (splitPostUrl m.url).1 (splitPostUrl m.url).2),
                Ev.req (Req.get (pyStrip (fdataText pbody)) false)],
          by simp [emit], by simp [emit], by
          intro ev hev
          simp only [List.mem_cons, List.mem_singleton] at hev
          rcases hev with h | h | h <;> first
            | (subst h; simp [dlOk, matchesMode, isPacingEv, hg'])
            | simp at h⟩
      | ok body =>
        exact ⟨[Ev.req (Req.post (splitPostUrl m.url).1 (splitPostUrl m.url).2),
                Ev.req (Req.get (pyStrip (fdataText pbody)) false)],
          by simp [emit], by simp [emit], by
          intro ev hev
          simp only [List.mem_cons, List.mem_singleton] at hev
          rcases hev with h | h | h <;> first
            | (subst h; simp [dlOk, matchesMode, isPacingEv, hg'])
            | simp at h⟩

theorem tryAttempt_delta (net : Nat → Req → Resp) (m : Memory)
    (sid : Option String) (dir filename : String) (attempt : Nat) (st : DState) :
    ∃ delta, (tryAttempt net m sid dir filename attempt st).1.trace = st.trace ++ delta ∧
      (∀ ev ∈ delta, dlOk m ev) ∧
      (sid = none →
        (tryAttempt net m sid dir filename attempt st).1.downloaded_files
          = st.downloaded_files) := by
  unfold tryAttempt
  obtain ⟨df, hf1, hf2, hf3⟩ :=
    fetchPhase_delta net m (dir ++ "/" ++ filename) attempt st
  rcases hfp : fetchPhase net m (dir ++ "/" ++ filename) attempt st with ⟨stW, wrote⟩
  rw [hfp] at hf1 hf2
  simp only [hfp]
  simp only at hf1 hf2
  cases wrote with
  | false => exact ⟨df, hf1, hf3, fun _ => hf2⟩
  | true =>
    simp only
    cases hlk : List.lookup (dir ++ "/" ++ filename) stW.fs with
    | none => exact ⟨df, hf1, hf3, fun _ => hf2⟩
    | some d =>
      by_cases hsz : 0 < fdataSize d
      · simp only [if_pos hsz]
        obtain ⟨dz, hz1, hz2, hz3⟩ := extract_zip_delta m dir filename stW
        cases sid with
        | none =>
          refine ⟨df ++ dz ++ [Ev.statIncr "successful" true], ?_, ?_, ?_⟩
          · simp [hz1, hf1]
          · intro ev hev
            simp only [List.mem_append, List.mem_singleton] at hev
            rcases hev with (h | h) | h
            · exact hf3 ev h
            · exact hz3 ev h
            · subst h
              simp [dlOk, matchesMode, isPacingEv]
          · intro _
            simp [hz2, hf2]
        | some s =>
          refine ⟨df ++ dz ++ [Ev.statIncr "successful" true], ?_, ?_, ?_⟩
          · simp [hz1, hf1]
          · intro ev hev
            simp only [List.mem_append, List.mem_singleton] at hev
            rcases hev with (h | h) | h
            · exact hf3 ev h
            · exact hz3 ev h
            · subst h
              simp [dlOk, matchesMode, isPacingEv]
          · intro hnone
            exact absurd hnone (by simp)
      · simp only [if_neg hsz]
        exact ⟨df, hf1, hf3, fun _ => hf2⟩

theorem attemptLoop_delta (cfg : Config) (net : Nat → Req → Resp) (m : Memory)
    (sid : Option String) (dir filename : String) :
    ∀ (r attempt : Nat) (st : DState),
    ∃ delta,
      (attemptLoop cfg net m sid dir filename r attempt st).2.trace = st.trace ++ delta ∧
      (∀ ev ∈ delta, dlOk m ev) ∧
      (sid = none →
        (attemptLoop cfg net m sid dir filename r attempt st).2.downloaded_files
          = st.downloaded_files) := by
  intro r
  induction r with
  | zero => intro attempt st; exact ⟨[], by simp [attemptLoop], by simp, fun _ => rfl⟩
  | succ r ih =>
    intro attempt st
    obtain ⟨dt, ht1, ht2, ht3⟩ := tryAttempt_delta net m sid dir filename attempt st
    rcases hta : tryAttempt net m sid dir filename attempt st with ⟨st', ok⟩
    rw [hta] at ht1 ht3
    have ht1' : st'.trace = st.trace ++ dt := ht1
    have ht3' : sid = none → st'.downloaded_files = st.downloaded_files := ht3
    rw [attemptLoop]
    simp only [hta]
    cases ok with
    | true => exact ⟨dt, ht1', ht2, ht3'⟩
    | false =>
      dsimp only
      by_cases hlt : attempt < cfg.max_retries - 1
      · simp only [if_pos hlt]
        obtain ⟨dr, hr1, hr2, hr3⟩ := ih (attempt + 1)
          { st' with trace := st'.trace ++ [Ev.sleepBackoff (2 ^ attempt)] }
        refine ⟨dt ++ [Ev.sleepBackoff (2 ^ attempt)] ++ dr, ?_, ?_, ?_⟩
        · rw [hr1]
          simp [ht1']
        · intro ev hev
          simp only [List.mem_append, List.mem_singleton] at hev
          rcases hev with (h | h) | h
          · exact ht2 ev h
          · subst h
            simp [dlOk, matchesMode, isPacingEv]
          · exact hr2 ev h
        · intro hnone
          rw [hr3 hnone]
          exact ht3' hnone
      · simp only [if_neg hlt]
        refine ⟨dt ++ [Ev.logFailure m.url, Ev.statIncr "failed" true], ?_, ?_, ?_⟩
        · simp [ht1']
        · intro ev hev
          simp only [List.mem_append, List.mem_cons, List.mem_singleton] at hev
          rcases hev with h | h | h
          · exact ht2 ev h
          · subst h
            simp [dlOk, matchesMode, isPacingEv]
          · rcases h with h | h
            · subst h
              simp [dlOk, matchesMode, isPacingEv]
            · simp at h
        · exact ht3'

theorem download_file_delta (cfg : Config) (net : Nat → Req → Resp)
    (pyhash : String → Int) (m : Memory) (st : DState) :
    ∃ delta, (download_file cfg net pyhash m st).2.trace = st.trace ++ delta ∧
      (∀ ev ∈ delta, dlOk m ev) ∧
      (extract_sid_from_url m.url = none →
        (download_file cfg net pyhash m st).2.downloaded_files = st.downloaded_files) := by
  unfold download_file
  by_cases hk : sidKnown (extract_sid_from_url m.url) st
  · simp only [hk, if_true]
    refine ⟨[Ev.statIncr "skipped" true], by simp, ?_, ?_⟩
    · intro ev hev
      simp only [List.mem_singleton] at hev
      subst hev
      refine ⟨trivial, rfl, fun _ => ?_⟩
      cases hs : extract_sid_from_url m.url with
      | none => rw [hs] at hk; simp [sidKnown] at hk
      | some s => rfl
    · intro hnone
      rw [hnone] at hk
      simp [sidKnown] at hk
  · simp only [hk, Bool.false_eq_true, if_false]
    set output_path :=
      outputDirOf cfg m ++ "/" ++ generate_filename pyhash m with hop
    by_cases hd : fileOnDisk output_path st
    · simp only [hd, if_true]
      cases hs : extract_sid_from_url m.url with
      | none =>
        refine ⟨[Ev.statIncr "skipped" false], by simp, ?_, fun _ => by simp⟩
        intro ev hev
        simp only [List.mem_singleton] at hev
        subst hev
        simp [dlOk, matchesMode, isPacingEv]
      | some s =>
        refine ⟨[Ev.statIncr "skipped" false], by simp, ?_, fun h => by simp at h⟩
        intro ev hev
        simp only [List.mem_singleton] at hev
        subst hev
        simp [dlOk, matchesMode, isPacingEv]
    · simp only [hd, Bool.false_eq_true, if_false]
      exact attemptLoop_delta cfg net m (extract_sid_from_url m.url) _ _
        cfg.max_retries 0 st

/-! ## Claim C10: no state-store entry without a `sid` -/

/-- Claim C10: for a descriptor whose locator yields no extractable `sid`,
no terminated `download_file` call ever inserts into the state-store
mapping (`downloaded_files` is unchanged on every path, success and
skip-on-disk included), and the call never takes the Skipped-Known path
(whose counter update is the only one emitted with the lock held and the
`skipped` label): such items can only be skipped later via the on-disk
non-empty-file check. -/
theorem C10_no_sid_no_state_entry (cfg : Config) (net : Nat → Req → Resp)
    (pyhash : String → Int) (m : Memory) (st : DState)
    (hsid : extract_sid_from_url m.url = none) :
    (download_file cfg net pyhash m st).2.downloaded_files = st.downloaded_files ∧
    ∀ ev ∈ (download_file cfg net pyhash m st).2.trace,
      ev = Ev.statIncr "skipped" true → ev ∈ st.trace := by
  obtain ⟨delta, htr, hok, hdf⟩ := download_file_delta cfg net pyhash m st
  refine ⟨hdf hsid, ?_⟩
  intro ev hev heq
  rw [htr] at hev
  rcases List.mem_append.mp hev with h | h
  · exact h
  · exfalso
    have hsome := (hok ev h).2.2 heq
    rw [hsid] at hsome
    simp at hsome

/-- Claim C10 witness: the theorem applied to the concrete no-`sid`
descriptor in a state whose store holds an unrelated entry: the store is
untouched by a successful download. -/
theorem C10_no_sid_no_state_entry_witness :
    (download_file defaultCfg netAlwaysOk hashA memNoSid
        { emptyDState with downloaded_files := [("otherSid", "p")] }).2.downloaded_files
      = ({ emptyDState with
            downloaded_files := [("otherSid", "p")] } : DState).downloaded_files :=
  (C10_no_sid_no_state_entry defaultCfg netAlwaysOk hashA memNoSid
    { emptyDState with downloaded_files := [("otherSid", "p")] } (by decide)).1

/-! ## Claim C4: the directive boolean selects the transfer protocol -/

theorem matchCont_lit (s : List Char) (lit : String) (h : matchCont s = some lit) :
    lit = "true" ∨ lit = "false" := by
  unfold matchCont at h
  dsimp only at h
  split_ifs at h <;> simp_all

theorem lazyCapture_lit (s : List Char) :
    ∀ (acc u : List Char) (lit : String), lazyCapture acc s = some (u, lit) →
      lit = "true" ∨ lit = "false" := by
  induction s with
  | nil => intro acc u lit h; simp [lazyCapture] at h
  | cons c t ih =>
    intro acc u lit h
    unfold lazyCapture at h
    split_ifs at h
    rcases hmc : matchCont t with _ | l
    · rw [hmc] at h
      exact ih (acc ++ [c]) u lit h
    · rw [hmc] at h
      simp only [Option.some.injEq, Prod.mk.injEq] at h
      exact h.2 ▸ matchCont_lit t l hmc

theorem searchDirective_lit (s : List Char) :
    ∀ (u lit : String), searchDirective s = some (u, lit) →
      lit = "true" ∨ lit = "false" := by
  induction s with
  | nil => intro u lit h; simp [searchDirective] at h
  | cons c t ih =>
    intro u lit h
    unfold searchDirective at h
    split_ifs at h
    · rcases hlc : lazyCapture [] ((c :: t).drop "downloadMemories('".data.length)
        with _ | ⟨v, l⟩
      · rw [hlc] at h
        exact ih u lit h
      · rw [hlc] at h
        simp only [Option.some.injEq, Prod.mk.injEq] at h
        exact h.2 ▸ lazyCapture_lit _ [] v l hlc
    · exact ih u lit h

theorem rowDirective_lit (cells : List Cell) (u lit : String)
    (h : rowDirective cells = some (u, lit)) : lit = "true" ∨ lit = "false" := by
  unfold rowDirective at h
  split_ifs at h
  split at h
  · exact searchDirective_lit _ u lit h
  · simp at h

/-- Claim C4: for every export row with at least four columns whose cell 3
holds a parseable `downloadMemories('<url>', this, <bool>)` directive, the
extractor maps the literal `true` to the Direct transfer mode
(`is_get_request = true`) and `false` to the Indirect mode, the captured
literal is always one of the two, and the executor issues only requests of
the protocol selected by that flag (Direct: the tagged GET; Indirect: the
POST and the untagged follow-up GET). -/
theorem C4_directive_selects_protocol (cells : List Cell) (m : Memory)
    (u lit : String) (hdir : rowDirective cells = some (u, lit))
    (hrow : parseRow cells = some m) :
    m.url = u ∧ m.is_get_request = (lit == "true") ∧
    (lit = "true" → m.is_get_request = true) ∧
    (lit = "false" → m.is_get_request = false) ∧
    (lit = "true" ∨ lit = "false") ∧
    ∀ (cfg : Config) (net : Nat → Req → Resp) (pyhash : String → Int)
      (st : DState) (ev : Ev),
      ev ∈ (download_file cfg net pyhash m st).2.trace →
        ev ∈ st.trace ∨ matchesMode m.is_get_request ev := by
  unfold parseRow at hrow
  rw [hdir] at hrow
  simp only [Option.some.injEq] at hrow
  subst hrow
  refine ⟨rfl, rfl, ?_, ?_, rowDirective_lit cells u lit hdir, ?_⟩
  · intro h
    subst h
    rfl
  · intro h
    subst h
    rfl
  · intro cfg net pyhash st ev hev
    obtain ⟨delta, htr, hok, _⟩ := download_file_delta cfg net pyhash _ st
    rw [htr] at hev
    rcases List.mem_append.mp hev with h | h
    · exact Or.inl h
    · exact Or.inr (hok ev h).1

/-- Claim C4 witness: on a concrete row whose directive carries the
literal `true`, the parsed descriptor is in Direct mode. -/
theorem C4_directive_selects_protocol_witness :
    sampleMem.is_get_request = ("true" == "true") ∧ sampleMem.url = sampleUrl :=
  have h := C4_directive_selects_protocol sampleRow sampleMem sampleUrl "true"
    (by decide) (by decide)
  ⟨h.2.1, h.1⟩

/-! ## Claim C3: the retry loop on an always-failing transfer -/

theorem tryAttempt_allerr (net : Nat → Req → Resp) (m : Memory) (sid : Option String)
    (dir filename : String) (attempt : Nat) (st : DState)
    (hfail : ∀ k r, net k r = Resp.err) :
    tryAttempt net m sid dir filename attempt st =
      ({ st with trace := st.trace ++ [Ev.req (initialReq m)] }, false) := by
  unfold tryAttempt fetchPhase initialReq emit
  by_cases hg : m.is_get_request <;> simp [hg, hfail]

theorem attemptLoop_allerr (cfg : Config) (net : Nat → Req → Resp) (m : Memory)
    (sid : Option String) (dir filename : String)
    (hfail : ∀ k r, net k r = Resp.err) :
    ∀ (r attempt : Nat) (st : DState), attempt + r = cfg.max_retries → 1 ≤ r →
    attemptLoop cfg net m sid dir filename r attempt st =
      (false,
       { st with
         failed := st.failed + 1,
         failure_log := st.failure_log ++ [m.url],
         trace := st.trace ++
           ((List.range' attempt r).flatMap fun k =>
             Ev.req (initialReq m) ::
               (if k < cfg.max_retries - 1 then [Ev.sleepBackoff (2 ^ k)] else [])) ++
           [Ev.logFailure m.url, Ev.statIncr "failed" true] }) := by
  intro r
  induction r with
  | zero => intro attempt st _ h1; exact absurd h1 (by omega)
  | succ r ih =>
    intro attempt st hsum _
    rw [attemptLoop, tryAttempt_allerr net m sid dir filename attempt st hfail]
    dsimp only
    by_cases hlt : attempt < cfg.max_retries - 1
    · rw [if_pos hlt]
      have hr : 1 ≤ r := by omega
      rw [ih (attempt + 1) _ (by omega) hr]
      simp [List.range'_succ, if_pos hlt, List.append_assoc]
    · rw [if_neg hlt]
      have hr0 : r = 0 := by omega
      subst hr0
      simp [List.range'_succ, if_neg hlt]

theorem countP_req_flatMap (m : Memory) (mr : Nat) :
    ∀ (r a : Nat),
    (((List.range' a r).flatMap fun k =>
        Ev.req (initialReq m) ::
          (if k < mr - 1 then [Ev.sleepBackoff (2 ^ k)] else [])).countP isReqEv) = r := by
  intro r
  induction r with
  | zero => intro a; simp
  | succ r ih =>
    intro a
    rw [List.range'_succ]
    simp only [List.flatMap_cons, List.countP_append, List.countP_cons]
    rw [ih (a + 1)]
    by_cases h : a < mr - 1 <;> simp [h, isReqEv]
    · omega
    · omega

theorem filterMap_backoff_flatMap (m : Memory) (mr : Nat) :
    ∀ (r a : Nat),
    ((List.range' a r).flatMap fun k =>
        Ev.req (initialReq m) ::
          (if k < mr - 1 then [Ev.sleepBackoff (2 ^ k)] else [])).filterMap backoffOf
      = ((List.range' a r).filter fun k => decide (k < mr - 1)).map (fun k => 2 ^ k) := by
  intro r
  induction r with
  | zero => intro a; simp
  | succ r ih =>
    intro a
    rw [List.range'_succ]
    simp only [List.flatMap_cons, List.filterMap_append, List.filterMap_cons, List.filter_cons]
    rw [ih (a + 1)]
    by_cases h : a < mr - 1 <;> simp [h, backoffOf]

theorem range_filter_lt (n : Nat) (h : 1 ≤ n) :
    ((List.range n).filter fun k => decide (k < n - 1)) = List.range (n - 1) := by
  obtain ⟨m, rfl⟩ : ∃ m, n = m + 1 := ⟨n - 1, by omega⟩
  simp only [Nat.add_sub_cancel]
  rw [List.range_succ, List.filter_append]
  have h1 : ((List.range m).filter fun k => decide (k < m)) = List.range m := by
    apply List.filter_eq_self.mpr
    intro a ha
    simpa using List.mem_range.mp ha
  rw [h1]
  simp

theorem retryTrace_countP (m : Memory) (mr : Nat) :
    (retryTrace m mr).countP isReqEv = mr := by
  unfold retryTrace
  rw [List.countP_append, List.range_eq_range', countP_req_flatMap m mr mr 0]
  simp [isReqEv]

theorem retryTrace_backoffs (m : Memory) (mr : Nat) (h : 1 ≤ mr) :
    (retryTrace m mr).filterMap backoffOf
      = (List.range (mr - 1)).map (fun k => 2 ^ k) := by
  unfold retryTrace
  rw [List.filterMap_append, List.range_eq_range', filterMap_backoff_flatMap m mr mr 0,
    ← List.range_eq_range', range_filter_lt mr h]
  simp [backoffOf]

/-- Claim C3: for every descriptor whose transfer raises on every attempt
(and which is neither already known to the state store nor already on
disk), `download_file` returns failure and leaves the state unchanged
except that: `failed` is incremented exactly once, exactly one Failure
Record is appended, and the trace grows by exactly `retryTrace` — for
each attempt index `0 .. max_retries-1` one initial request, with the
backoff sleeps `2^0, 2^1, …, 2^(max_retries-2)` between consecutive
attempts and none after the final one.  The trace therefore contains
exactly `max_retries` requests, and its backoff sleeps are exactly that
geometric list (last two conjuncts). -/
theorem C3_retry_bound (cfg : Config) (net : Nat → Req → Resp)
    (pyhash : String → Int) (m : Memory) (st : DState)
    (hmr : 1 ≤ cfg.max_retries)
    (hfail : ∀ k r, net k r = Resp.err)
    (hknown : sidKnown (extract_sid_from_url m.url) st = false)
    (hdisk : fileOnDisk (targetPath cfg pyhash m) st = false) :
    download_file cfg net pyhash m st =
      (false,
       { st with failed := st.failed + 1,
                 failure_log := st.failure_log ++ [m.url],
                 trace := st.trace ++ retryTrace m cfg.max_retries }) ∧
    (retryTrace m cfg.max_retries).countP isReqEv = cfg.max_retries ∧
    (retryTrace m cfg.max_retries).filterMap backoffOf
      = (List.range (cfg.max_retries - 1)).map (fun k => 2 ^ k) := by
  refine ⟨?_, retryTrace_countP m cfg.max_retries,
    retryTrace_backoffs m cfg.max_retries hmr⟩
  unfold download_file
  simp only [targetPath] at hdisk
  simp only [hknown, Bool.false_eq_true, if_false, hdisk]
  rw [attemptLoop_allerr cfg net m _ _ _ hfail cfg.max_retries 0 st (by omega) hmr]
  unfold retryTrace
  simp [List.range_eq_range', List.append_assoc]

/-- Claim C3 witness: the theorem applied to the default configuration
(3 retries), an always-failing oracle and the concrete descriptor: the
result is failure with one log record and the exact three-attempt trace,
which indeed contains 3 requests. -/
theorem C3_retry_bound_witness :
    download_file defaultCfg netAlwaysErr hashA memNoSid emptyDState =
      (false,
       { emptyDState with failed := emptyDState.failed + 1,
                          failure_log := emptyDState.failure_log ++ [memNoSid.url],
                          trace := emptyDState.trace ++
                            retryTrace memNoSid defaultCfg.max_retries }) ∧
    (retryTrace memNoSid defaultCfg.max_retries).countP isReqEv
      = defaultCfg.max_retries :=
  have h := C3_retry_bound defaultCfg netAlwaysErr hashA memNoSid emptyDState
    (by decide) (fun _ _ => rfl) (by decide) (by decide)
  ⟨h.1, h.2.1⟩


/-! ## Claim C9: strictly sequential pacing -/

theorem seqResults_cons_ne_nil (cfg : Config) (net : Nat → Req → Resp)
    (pyhash : String → Int) (m : Memory) (mems : List Memory) (st : DState) :
    seqResults cfg net pyhash (m :: mems) st ≠ [] := by
  rw [seqResults]
  exact List.cons_ne_nil _ _

/-- Claim C9: with concurrency level 1 the scheduler processes the
descriptors strictly in extraction order — the final trace is the initial
trace followed by the per-item blocks in list order (`pacedBlocks`), where
each block is that item's own `download_file` events followed by a pacing
sleep of the configured delay exactly when the item succeeded and is not
the last — and the number of pacing sleeps in the whole run equals the
number of successful non-final items (no pacing sleep ever follows a
failed item or the final item; `download_file` itself never emits one). -/
theorem C9_sequential_pacing (cfg : Config) (net : Nat → Req → Resp)
    (pyhash : String → Int) :
    ∀ (mems : List Memory) (st : DState),
    (run_sequential cfg net pyhash mems st).trace
      = st.trace ++ (pacedBlocks cfg net pyhash mems st).flatten ∧
    (run_sequential cfg net pyhash mems st).trace.countP isPacingEv
      = st.trace.countP isPacingEv
        + ((seqResults cfg net pyhash mems st).dropLast.count true) := by
  intro mems
  induction mems with
  | nil => intro st; simp [run_sequential, pacedBlocks, seqResults]
  | cons m rest ih =>
    intro st
    obtain ⟨delta, htr, hok, _⟩ := download_file_delta cfg net pyhash m st
    rcases hr : download_file cfg net pyhash m st with ⟨succ, st1⟩
    rw [hr] at htr
    have htr1 : st1.trace = st.trace ++ delta := htr
    have hdrop : st1.trace.drop st.trace.length = delta := by
      rw [htr1]
      exact List.drop_left _ _
    have hz : delta.countP isPacingEv = 0 :=
      List.countP_eq_zero.mpr (fun ev hev => by simp [(hok ev hev).2.1])
    rw [run_sequential, seqResults, pacedBlocks]
    simp only [hr]
    cases rest with
    | nil =>
      simp only [run_sequential, pacedBlocks, seqResults, List.isEmpty_nil,
        Bool.not_true, Bool.false_and, Bool.false_eq_true, if_false]
      refine ⟨?_, ?_⟩
      · rw [hdrop]
        simp [htr1]
      · simp [htr1, List.countP_append, hz]
    | cons x xs =>
      simp only [List.isEmpty_cons, Bool.not_false, Bool.true_and]
      cases succ with
      | false =>
        simp only [Bool.false_eq_true, if_false]
        obtain ⟨ih1, ih2⟩ := ih st1
        refine ⟨?_, ?_⟩
        · rw [ih1, hdrop, htr1]
          simp
        · rw [ih2]
          have hne := seqResults_cons_ne_nil cfg net pyhash x xs st1
          rw [List.dropLast_cons_of_ne_nil hne]
          simp [htr1, List.countP_append, hz, List.count_cons]
      | true =>
        simp only [if_true]
        obtain ⟨ih1, ih2⟩ := ih (emit (Ev.sleepPacing cfg.delay) st1)
        refine ⟨?_, ?_⟩
        · rw [ih1, hdrop]
          simp [emit, htr1]
        · rw [ih2]
          have hne := seqResults_cons_ne_nil cfg net pyhash x xs
            (emit (Ev.sleepPacing cfg.delay) st1)
          rw [List.dropLast_cons_of_ne_nil hne]
          simp [emit, htr1, List.countP_append, hz, List.count_cons, isPacingEv]
          omega

/-- Claim C9 witness: the theorem applied to a two-item list where the
first item succeeds and the second fails: the run's trace is the two
blocks in order, and it contains exactly one pacing sleep (after the
successful non-final item only). -/
theorem C9_sequential_pacing_witness :
    (run_sequential defaultCfg netSecondFails hashA [memNoSid, memBadDate]
        emptyDState).trace
      = emptyDState.trace ++
        (pacedBlocks defaultCfg netSecondFails hashA [memNoSid, memBadDate]
          emptyDState).flatten ∧
    (run_sequential defaultCfg netSecondFails hashA [memNoSid, memBadDate]
        emptyDState).trace.countP isPacingEv
      = emptyDState.trace.countP isPacingEv
        + ((seqResults defaultCfg netSecondFails hashA [memNoSid, memBadDate]
            emptyDState).dropLast.count true) :=
  C9_sequential_pacing defaultCfg netSecondFails hashA [memNoSid, memBadDate]
    emptyDState

end SnapMem
